import Mathlib

/-!
Shallow embedding of the PESA pallet (`src/pallets/pesa/src/lib.rs`).

The pallet keeps two storage maps over a shared record type `UserInfo`:
`PhoneLookUp : AccountId → Option UserInfo` and
`AccountLookUp : Phone → Option UserInfo`, and exposes the extrinsics
`register`, `look_up`, `reverse_look_up`, `account_data`, `allow_tranfer`,
`tranfer` and `clear_data`.  Storage maps are embedded as association
lists with a canonical insert (new binding in front, all old bindings for
the key dropped), so that states are comparable by decidable equality.
Each extrinsic becomes a function from the caller (already past
`ensure_signed`), its arguments and the current state to the new state
paired with `Except Error (List Event)`; the event list records the
`deposit_event` calls of the successful run.
-/

namespace Pesa

/-- `T::AccountId`, opaque in the pallet; embedded as `Nat`. -/
abbrev AccountId := Nat

/-- `pub struct Phone(Vec<u8>);` — a byte sequence, embedded as `List Nat`. -/
abbrev Phone := List Nat

/-- `pub struct UserInfo<AccountId>` of the pallet. -/
structure UserInfo where
  owner : AccountId
  public : Bool
  transferable : Bool
  phone : Phone
deriving Repr, DecidableEq

/-- The runtime configuration consumed by the pallet: `type Transfer: Get<bool>`,
`type NumberMaxLength: Get<u32>`, `type NumberMinLength: Get<u32>`.
The two length bounds are `u32` values, hence `< 2^32`; theorems that need
this carry it as an explicit hypothesis. -/
structure Config where
  Transfer : Bool
  NumberMaxLength : Nat
  NumberMinLength : Nat
deriving Repr, DecidableEq

/-- `decl_error!` enum of the pallet. -/
inductive Error
  | NumberOverflow
  | InvalidTransfer
  | NumberTooShort
  | NumberTooLong
  | NumberAlreadyExists
  | LookupFailure
  | NumberNotPublic
  | IncorrectInformation
  | NumberDoesNotExist
  | AccountDoesNotExist
deriving Repr, DecidableEq

/-- `decl_event!` enum of the pallet. -/
inductive Event
  | NumberTransfered (a b : AccountId)
  | NumberRemoved
  | LookUpSuccess (phone : Phone)
  | AccountFound (a : AccountId)
  | SuccessfullRegsitration
  | AccountData (a : AccountId) (isPublic isTransferable : Bool) (phone : Phone)
  | TransferableSet
deriving Repr, DecidableEq

/-- Association-list lookup: the value of the first binding of key `k`. -/
def mlookup {α β : Type} [DecidableEq α] (l : List (α × β)) (k : α) : Option β :=
  match l with
  | [] => none
  | (k', v) :: t => if k' = k then some v else mlookup t k

/-- Storage-map insert: bind `k` to `v`, dropping every older binding of `k`. -/
def minsert {α β : Type} [DecidableEq α] (l : List (α × β)) (k : α) (v : β) :
    List (α × β) :=
  (k, v) :: l.filter (fun p => decide (p.1 ≠ k))

/-- Storage-map remove: drop every binding of `k`. -/
def mremove {α β : Type} [DecidableEq α] (l : List (α × β)) (k : α) :
    List (α × β) :=
  l.filter (fun p => decide (p.1 ≠ k))

/-- `contains_key` of a storage map. -/
def mcontains {α β : Type} [DecidableEq α] (l : List (α × β)) (k : α) : Bool :=
  (mlookup l k).isSome

/-- The pair of storage maps `PhoneLookUp` and `AccountLookUp`. -/
structure State where
  phoneLookUp : List (AccountId × UserInfo)
  accountLookUp : List (Phone × UserInfo)
deriving Repr, DecidableEq

/-- Both maps empty: genesis storage. -/
def emptyState : State := ⟨[], []⟩

/-- `u32::MAX`. -/
def u32MAX : Nat := 4294967295

/-- `fn get_usize_safe(v: usize) -> Option<u32>`: `None` when `v > u32::MAX`,
otherwise the value itself. -/
def get_usize_safe (v : Nat) : Option Nat :=
  if v > u32MAX then none else some v

/-- Result of one extrinsic: the state after the call, and either the list of
deposited events (success) or the dispatch error. -/
abbrev OpResult := State × Except Error (List Event)

/-- `pub fn register(origin, phone_number: Phone, public: bool, new_account: bool)`. -/
def register (cfg : Config) (account : AccountId) (phone_number : Phone)
    (public new_account : Bool) (st : State) : OpResult :=
  match get_usize_safe phone_number.length with
  | none => (st, .error .NumberOverflow)
  | some phone_size =>
    if ¬ phone_size ≥ cfg.NumberMinLength then (st, .error .NumberTooShort)
    else if ¬ phone_size ≤ cfg.NumberMaxLength then (st, .error .NumberTooLong)
    else if new_account && mcontains st.phoneLookUp account then
      (st, .error .NumberAlreadyExists)
    else if new_account && mcontains st.accountLookUp phone_number then
      (st, .error .NumberAlreadyExists)
    else if !new_account && !mcontains st.phoneLookUp account then
      (st, .error .NumberDoesNotExist)
    else if !new_account && !mcontains st.accountLookUp phone_number then
      (st, .error .NumberDoesNotExist)
    else
      let user_info : UserInfo :=
        { owner := account, public := public, transferable := false,
          phone := phone_number }
      ({ phoneLookUp := minsert st.phoneLookUp account user_info,
         accountLookUp := minsert st.accountLookUp phone_number user_info },
       .ok [.SuccessfullRegsitration])

/-- `pub fn look_up(origin, phone_number: Phone)`. -/
def look_up (_cfg : Config) (_account : AccountId) (phone_number : Phone)
    (st : State) : OpResult :=
  match mlookup st.accountLookUp phone_number with
  | none => (st, .error .LookupFailure)
  | some user =>
    if !user.public then (st, .error .NumberNotPublic)
    else (st, .ok [.AccountFound user.owner])

/-- `pub fn reverse_look_up(origin, check_account: T::AccountId)`. -/
def reverse_look_up (_cfg : Config) (_account : AccountId)
    (check_account : AccountId) (st : State) : OpResult :=
  match mlookup st.phoneLookUp check_account with
  | none => (st, .error .LookupFailure)
  | some user =>
    if !user.public then (st, .error .NumberNotPublic)
    else (st, .ok [.LookUpSuccess user.phone])

/-- `pub fn account_data(origin)`. -/
def account_data (_cfg : Config) (account : AccountId) (st : State) : OpResult :=
  match mlookup st.phoneLookUp account with
  | none => (st, .error .LookupFailure)
  | some user =>
    (st, .ok [.AccountData account user.public user.transferable user.phone])

/-- `pub fn allow_tranfer(origin)`. -/
def allow_tranfer (_cfg : Config) (account : AccountId) (st : State) : OpResult :=
  if !mcontains st.phoneLookUp account then (st, .error .AccountDoesNotExist)
  else
    match mlookup st.phoneLookUp account with
    | none => (st, .error .LookupFailure)
    | some user0 =>
      if !mcontains st.accountLookUp user0.phone then
        (st, .error .NumberDoesNotExist)
      else
        let user : UserInfo := { user0 with transferable := true }
        ({ phoneLookUp := minsert st.phoneLookUp account user,
           accountLookUp := minsert st.accountLookUp user.phone user },
         .ok [.TransferableSet])

/-- `pub fn tranfer(origin, tranfer_account: T::AccountId)` — the body after
`ensure_signed` is only a todo comment and `Ok(())`. -/
def tranfer (_cfg : Config) (_account : AccountId)
    (_tranfer_account : AccountId) (st : State) : OpResult :=
  (st, .ok [])

/-- `pub fn clear_data(origin)`. -/
def clear_data (_cfg : Config) (account : AccountId) (st : State) : OpResult :=
  if !mcontains st.phoneLookUp account then (st, .error .IncorrectInformation)
  else
    match mlookup st.phoneLookUp account with
    | none => (st, .error .LookupFailure)
    | some user =>
      if !mcontains st.accountLookUp user.phone then
        (st, .error .IncorrectInformation)
      else
        ({ phoneLookUp := mremove st.phoneLookUp account,
           accountLookUp := mremove st.accountLookUp user.phone },
         .ok [.NumberRemoved])

/-- One extrinsic call: the operation name plus the signed caller and the
arguments. -/
inductive Op
  | register (account : AccountId) (phone_number : Phone)
      (public new_account : Bool)
  | look_up (account : AccountId) (phone_number : Phone)
  | reverse_look_up (account : AccountId) (check_account : AccountId)
  | account_data (account : AccountId)
  | allow_tranfer (account : AccountId)
  | tranfer (account : AccountId) (tranfer_account : AccountId)
  | clear_data (account : AccountId)
deriving Repr, DecidableEq

/-- Dispatch one extrinsic call against a state. -/
def applyOp (cfg : Config) (op : Op) (st : State) : OpResult :=
  match op with
  | .register a p pub nw => register cfg a p pub nw st
  | .look_up a p => look_up cfg a p st
  | .reverse_look_up a c => reverse_look_up cfg a c st
  | .account_data a => account_data cfg a st
  | .allow_tranfer a => allow_tranfer cfg a st
  | .tranfer a t => tranfer cfg a t st
  | .clear_data a => clear_data cfg a st

/-! ### Invariants -/

/-- The duality invariant of the spec: every `PhoneLookUp` entry is mirrored in
`AccountLookUp` under its `phone`, and every `AccountLookUp` entry is mirrored
in `PhoneLookUp` under its `owner`. -/
def dualityInv (st : State) : Prop :=
  (∀ k u, mlookup st.phoneLookUp k = some u →
    mlookup st.accountLookUp u.phone = some u) ∧
  (∀ p u, mlookup st.accountLookUp p = some u →
    mlookup st.phoneLookUp u.owner = some u)

/-- Key agreement: a record stored under account `k` has `owner = k`, and a
record stored under phone `p` has `phone = p`. -/
def keyAgree (st : State) : Prop :=
  (∀ k u, mlookup st.phoneLookUp k = some u → u.owner = k) ∧
  (∀ p u, mlookup st.accountLookUp p = some u → u.phone = p)

/-- The inductive invariant: duality strengthened with key agreement. -/
def Inv (st : State) : Prop := dualityInv st ∧ keyAgree st

/-- The safety side condition forced by the duality counterexample: a
`register` call with `new_account = false` must re-register the phone already
recorded for the caller.  Every other operation is unconditionally safe. -/
def registerSafe (op : Op) (st : State) : Prop :=
  match op with
  | .register account phone_number _ new_account =>
      new_account = false →
        ∃ u0, mlookup st.phoneLookUp account = some u0 ∧
          u0.phone = phone_number
  | _ => True

/-- States reachable from genesis by successful extrinsics whose `register`
calls obey `registerSafe`. -/
inductive ReachableSafe (cfg : Config) : State → Prop
  | init : ReachableSafe cfg emptyState
  | step {st st' : State} {op : Op} {evs : List Event} :
      ReachableSafe cfg st → registerSafe op st →
      applyOp cfg op st = (st', Except.ok evs) →
      ReachableSafe cfg st'

/-- Thread a list of extrinsic calls through the store, keeping each call's
resulting state (error or not). -/
def runOps (cfg : Config) (ops : List Op) (st : State) : State :=
  match ops with
  | [] => st
  | op :: t => runOps cfg t (applyOp cfg op st).1

/-- `true` when every call in the list succeeds when run in sequence. -/
def okRun (cfg : Config) (ops : List Op) (st : State) : Bool :=
  match ops with
  | [] => true
  | op :: t =>
    match (applyOp cfg op st).2 with
    | .error _ => false
    | .ok _ => okRun cfg t (applyOp cfg op st).1

/-! ### Lemmas about the storage-map primitives -/

theorem mlookup_filter_self {α β : Type} [DecidableEq α] (l : List (α × β))
    (k : α) :
    mlookup (l.filter (fun p => !decide (p.1 = k))) k = none := by
  induction l with
  | nil => rfl
  | cons p t ih =>
    rw [List.filter_cons]
    cases p with
    | mk pk pv =>
      by_cases hp : pk = k
      · simp [hp, ih]
      · simp [mlookup, hp, ih]

theorem mlookup_filter_ne {α β : Type} [DecidableEq α] (l : List (α × β))
    (k k' : α) (h : k ≠ k') :
    mlookup (l.filter (fun p => !decide (p.1 = k))) k' = mlookup l k' := by
  induction l with
  | nil => rfl
  | cons p t ih =>
    rw [List.filter_cons]
    cases p with
    | mk pk pv =>
      by_cases hp : pk = k
      · have hp' : pk ≠ k' := by rw [hp]; exact h
        simp [mlookup, hp, hp', ih, h]
      · by_cases hk' : pk = k'
        · simp [mlookup, hp, hk', ih, h, Ne.symm h]
        · simp [mlookup, hp, hk', ih, h]

theorem mlookup_minsert {α β : Type} [DecidableEq α] (l : List (α × β))
    (k k' : α) (v : β) :
    mlookup (minsert l k v) k' = if k = k' then some v else mlookup l k' := by
  simp only [minsert, ne_eq, decide_not]
  by_cases h : k = k'
  · simp [mlookup, h]
  · simp [mlookup, h, mlookup_filter_ne l k k' h]

theorem mlookup_mremove {α β : Type} [DecidableEq α] (l : List (α × β))
    (k k' : α) :
    mlookup (mremove l k) k' = if k = k' then none else mlookup l k' := by
  simp only [mremove, ne_eq, decide_not]
  by_cases h : k = k'
  · subst h
    simp [mlookup_filter_self l k]
  · simp [h, mlookup_filter_ne l k k' h]

theorem mcontains_iff {α β : Type} [DecidableEq α] (l : List (α × β)) (k : α) :
    mcontains l k = true ↔ ∃ v, mlookup l k = some v := by
  unfold mcontains
  cases h : mlookup l k <;> simp [Option.isSome, h]

theorem mcontains_false {α β : Type} [DecidableEq α] (l : List (α × β)) (k : α) :
    mcontains l k = false ↔ mlookup l k = none := by
  unfold mcontains
  cases h : mlookup l k <;> simp [Option.isSome, h]

/-! ### Atomicity on error -/

theorem register_error {cfg : Config} {a : AccountId} {p : Phone}
    {pub nw : Bool} {st st' : State} {e : Error}
    (h : register cfg a p pub nw st = (st', Except.error e)) : st' = st := by
  unfold register at h
  repeat' split at h
  all_goals
    first
    | exact (congrArg Prod.fst h).symm
    | simp at h

theorem look_up_error {cfg : Config} {a : AccountId} {p : Phone}
    {st st' : State} {e : Error}
    (h : look_up cfg a p st = (st', Except.error e)) : st' = st := by
  unfold look_up at h
  repeat' split at h
  all_goals exact (congrArg Prod.fst h).symm

theorem reverse_look_up_error {cfg : Config} {a c : AccountId}
    {st st' : State} {e : Error}
    (h : reverse_look_up cfg a c st = (st', Except.error e)) : st' = st := by
  unfold reverse_look_up at h
  repeat' split at h
  all_goals exact (congrArg Prod.fst h).symm

theorem account_data_error {cfg : Config} {a : AccountId}
    {st st' : State} {e : Error}
    (h : account_data cfg a st = (st', Except.error e)) : st' = st := by
  unfold account_data at h
  repeat' split at h
  all_goals exact (congrArg Prod.fst h).symm

theorem allow_tranfer_error {cfg : Config} {a : AccountId}
    {st st' : State} {e : Error}
    (h : allow_tranfer cfg a st = (st', Except.error e)) : st' = st := by
  unfold allow_tranfer at h
  repeat' split at h
  all_goals
    first
    | exact (congrArg Prod.fst h).symm
    | simp at h

theorem clear_data_error {cfg : Config} {a : AccountId}
    {st st' : State} {e : Error}
    (h : clear_data cfg a st = (st', Except.error e)) : st' = st := by
  unfold clear_data at h
  repeat' split at h
  all_goals
    first
    | exact (congrArg Prod.fst h).symm
    | simp at h

theorem applyOp_error {cfg : Config} {op : Op} {st st' : State} {e : Error}
    (h : applyOp cfg op st = (st', Except.error e)) : st' = st := by
  cases op <;> simp only [applyOp] at h
  case register a p pub nw => exact register_error h
  case look_up a p => exact look_up_error h
  case reverse_look_up a c => exact reverse_look_up_error h
  case account_data a => exact account_data_error h
  case allow_tranfer a => exact allow_tranfer_error h
  case tranfer a t => simp [tranfer] at h
  case clear_data a => exact clear_data_error h

/-! ### Success characterizations -/

theorem register_ok {cfg : Config} {a : AccountId} {p : Phone}
    {pub nw : Bool} {st st' : State} {evs : List Event}
    (h : register cfg a p pub nw st = (st', Except.ok evs)) :
    evs = [Event.SuccessfullRegsitration] ∧
    st' = { phoneLookUp :=
              minsert st.phoneLookUp a ⟨a, pub, false, p⟩,
            accountLookUp :=
              minsert st.accountLookUp p ⟨a, pub, false, p⟩ } ∧
    p.length ≤ u32MAX ∧
    cfg.NumberMinLength ≤ p.length ∧ p.length ≤ cfg.NumberMaxLength ∧
    (nw = true → mlookup st.phoneLookUp a = none ∧
      mlookup st.accountLookUp p = none) ∧
    (nw = false → (∃ u, mlookup st.phoneLookUp a = some u) ∧
      ∃ u, mlookup st.accountLookUp p = some u) := by
  unfold register at h
  repeat' split at h
  case _ heq => simp at h
  case _ => simp at h
  case _ => simp at h
  case _ => simp at h
  case _ => simp at h
  case _ => simp at h
  case _ => simp at h
  case _ heq h1 h2 h3 h4 h5 h6 =>
    rename_i phone_size
    have hsz : p.length ≤ u32MAX ∧ phone_size = p.length := by
      by_cases hb : p.length > u32MAX
      · simp [get_usize_safe, hb] at heq
      · simp [get_usize_safe, hb] at heq
        exact ⟨Nat.le_of_not_lt hb, heq.symm⟩
    obtain ⟨hle, rfl⟩ := hsz
    simp only [Prod.mk.injEq, Except.ok.injEq] at h
    obtain ⟨rfl, rfl⟩ := h
    refine ⟨rfl, rfl, hle, by omega, by omega, ?_, ?_⟩
    · intro hnw
      subst hnw
      constructor
      · cases hb : mcontains st.phoneLookUp a
        · exact (mcontains_false _ _).mp hb
        · simp [hb] at h3
      · cases hb : mcontains st.accountLookUp p
        · exact (mcontains_false _ _).mp hb
        · simp [hb] at h4
    · intro hnw
      subst hnw
      constructor
      · cases hb : mcontains st.phoneLookUp a
        · simp [hb] at h5
        · exact (mcontains_iff _ _).mp hb
      · cases hb : mcontains st.accountLookUp p
        · simp [hb] at h6
        · exact (mcontains_iff _ _).mp hb

theorem look_up_ok {cfg : Config} {a : AccountId} {p : Phone}
    {st st' : State} {evs : List Event}
    (h : look_up cfg a p st = (st', Except.ok evs)) :
    ∃ u, mlookup st.accountLookUp p = some u ∧ u.public = true ∧
      st' = st ∧ evs = [Event.AccountFound u.owner] := by
  unfold look_up at h
  repeat' split at h
  case _ => simp at h
  case _ => simp at h
  case _ heq hpub =>
    rename_i user
    simp only [Prod.mk.injEq, Except.ok.injEq] at h
    obtain ⟨rfl, rfl⟩ := h
    exact ⟨user, heq, by simpa using hpub, rfl, rfl⟩

theorem reverse_look_up_ok {cfg : Config} {a c : AccountId}
    {st st' : State} {evs : List Event}
    (h : reverse_look_up cfg a c st = (st', Except.ok evs)) :
    ∃ u, mlookup st.phoneLookUp c = some u ∧ u.public = true ∧
      st' = st ∧ evs = [Event.LookUpSuccess u.phone] := by
  unfold reverse_look_up at h
  repeat' split at h
  case _ => simp at h
  case _ => simp at h
  case _ heq hpub =>
    rename_i user
    simp only [Prod.mk.injEq, Except.ok.injEq] at h
    obtain ⟨rfl, rfl⟩ := h
    exact ⟨user, heq, by simpa using hpub, rfl, rfl⟩

theorem account_data_ok {cfg : Config} {a : AccountId}
    {st st' : State} {evs : List Event}
    (h : account_data cfg a st = (st', Except.ok evs)) :
    ∃ u, mlookup st.phoneLookUp a = some u ∧ st' = st ∧
      evs = [Event.AccountData a u.public u.transferable u.phone] := by
  unfold account_data at h
  repeat' split at h
  case _ => simp at h
  case _ heq =>
    rename_i user
    simp only [Prod.mk.injEq, Except.ok.injEq] at h
    obtain ⟨rfl, rfl⟩ := h
    exact ⟨user, heq, rfl, rfl⟩

theorem allow_tranfer_ok {cfg : Config} {a : AccountId}
    {st st' : State} {evs : List Event}
    (h : allow_tranfer cfg a st = (st', Except.ok evs)) :
    ∃ u0, mlookup st.phoneLookUp a = some u0 ∧
      (∃ w, mlookup st.accountLookUp u0.phone = some w) ∧
      evs = [Event.TransferableSet] ∧
      st' = { phoneLookUp :=
                minsert st.phoneLookUp a { u0 with transferable := true },
              accountLookUp :=
                minsert st.accountLookUp u0.phone
                  { u0 with transferable := true } } := by
  unfold allow_tranfer at h
  repeat' split at h
  case _ => simp at h
  case _ => simp at h
  case _ => simp at h
  case _ user0 heq h2 =>
    have h2' : mcontains st.accountLookUp user0.phone = true := by
      cases hb : mcontains st.accountLookUp user0.phone
      · simp [hb] at h2
      · rfl
    simp only [Prod.mk.injEq, Except.ok.injEq] at h
    obtain ⟨rfl, rfl⟩ := h
    exact ⟨user0, heq, (mcontains_iff _ _).mp h2', rfl, rfl⟩

theorem clear_data_ok {cfg : Config} {a : AccountId}
    {st st' : State} {evs : List Event}
    (h : clear_data cfg a st = (st', Except.ok evs)) :
    ∃ u, mlookup st.phoneLookUp a = some u ∧
      (∃ w, mlookup st.accountLookUp u.phone = some w) ∧
      evs = [Event.NumberRemoved] ∧
      st' = { phoneLookUp := mremove st.phoneLookUp a,
              accountLookUp := mremove st.accountLookUp u.phone } := by
  unfold clear_data at h
  repeat' split at h
  case _ => simp at h
  case _ => simp at h
  case _ => simp at h
  case _ user heq h2 =>
    have h2' : mcontains st.accountLookUp user.phone = true := by
      cases hb : mcontains st.accountLookUp user.phone
      · simp [hb] at h2
      · rfl
    simp only [Prod.mk.injEq, Except.ok.injEq] at h
    obtain ⟨rfl, rfl⟩ := h
    exact ⟨user, heq, (mcontains_iff _ _).mp h2', rfl, rfl⟩

theorem minsert_idem {α β : Type} [DecidableEq α] (l : List (α × β))
    (k : α) (v : β) :
    minsert (minsert l k v) k v = minsert l k v := by
  unfold minsert
  simp [List.filter_filter]

/-! ### Invariant preservation -/

theorem Inv_empty : Inv emptyState := by
  refine ⟨⟨?_, ?_⟩, ?_, ?_⟩ <;> intro k e hke <;> simp [emptyState, mlookup] at hke

theorem register_preserves_Inv {cfg : Config} {a : AccountId} {p : Phone}
    {pub nw : Bool} {st st' : State} {evs : List Event}
    (h : register cfg a p pub nw st = (st', Except.ok evs))
    (hsafe : nw = false →
      ∃ u0, mlookup st.phoneLookUp a = some u0 ∧ u0.phone = p)
    (hInv : Inv st) : Inv st' := by
  obtain ⟨-, rfl, -, -, -, hnew, -⟩ := register_ok h
  obtain ⟨⟨hd1, hd2⟩, hk1, hk2⟩ := hInv
  cases nw with
  | true =>
    obtain ⟨hPa, hAp⟩ := hnew rfl
    refine ⟨⟨?_, ?_⟩, ?_, ?_⟩
    · intro k e hke
      rw [mlookup_minsert] at hke
      by_cases hak : a = k
      · rw [if_pos hak] at hke
        obtain rfl := Option.some.inj hke
        simp [mlookup_minsert]
      · rw [if_neg hak] at hke
        have he := hd1 k e hke
        rw [mlookup_minsert]
        by_cases hpe : p = e.phone
        · rw [← hpe, hAp] at he
          cases he
        · rw [if_neg hpe]
          exact he
    · intro q e hqe
      rw [mlookup_minsert] at hqe
      by_cases hpq : p = q
      · rw [if_pos hpq] at hqe
        obtain rfl := Option.some.inj hqe
        simp [mlookup_minsert]
      · rw [if_neg hpq] at hqe
        have he := hd2 q e hqe
        rw [mlookup_minsert]
        by_cases hae : a = e.owner
        · rw [← hae, hPa] at he
          cases he
        · rw [if_neg hae]
          exact he
    · intro k e hke
      rw [mlookup_minsert] at hke
      by_cases hak : a = k
      · rw [if_pos hak] at hke
        obtain rfl := Option.some.inj hke
        exact hak
      · rw [if_neg hak] at hke
        exact hk1 k e hke
    · intro q e hqe
      rw [mlookup_minsert] at hqe
      by_cases hpq : p = q
      · rw [if_pos hpq] at hqe
        obtain rfl := Option.some.inj hqe
        exact hpq
      · rw [if_neg hpq] at hqe
        exact hk2 q e hqe
  | false =>
    obtain ⟨u0, hu0, hu0p⟩ := hsafe rfl
    have hALp : mlookup st.accountLookUp p = some u0 := by
      rw [← hu0p]
      exact hd1 a u0 hu0
    have hu0a : u0.owner = a := hk1 a u0 hu0
    refine ⟨⟨?_, ?_⟩, ?_, ?_⟩
    · intro k e hke
      rw [mlookup_minsert] at hke
      by_cases hak : a = k
      · rw [if_pos hak] at hke
        obtain rfl := Option.some.inj hke
        simp [mlookup_minsert]
      · rw [if_neg hak] at hke
        have he := hd1 k e hke
        rw [mlookup_minsert]
        by_cases hpe : p = e.phone
        · rw [← hpe, hALp] at he
          obtain rfl := Option.some.inj he
          exact absurd (hk1 k u0 hke ▸ hu0a.symm) hak
        · rw [if_neg hpe]
          exact he
    · intro q e hqe
      rw [mlookup_minsert] at hqe
      by_cases hpq : p = q
      · rw [if_pos hpq] at hqe
        obtain rfl := Option.some.inj hqe
        simp [mlookup_minsert]
      · rw [if_neg hpq] at hqe
        have he := hd2 q e hqe
        rw [mlookup_minsert]
        by_cases hae : a = e.owner
        · rw [← hae, hu0] at he
          obtain rfl := Option.some.inj he
          exact absurd ((hk2 q u0 hqe).symm.trans hu0p).symm hpq
        · rw [if_neg hae]
          exact he
    · intro k e hke
      rw [mlookup_minsert] at hke
      by_cases hak : a = k
      · rw [if_pos hak] at hke
        obtain rfl := Option.some.inj hke
        exact hak
      · rw [if_neg hak] at hke
        exact hk1 k e hke
    · intro q e hqe
      rw [mlookup_minsert] at hqe
      by_cases hpq : p = q
      · rw [if_pos hpq] at hqe
        obtain rfl := Option.some.inj hqe
        exact hpq
      · rw [if_neg hpq] at hqe
        exact hk2 q e hqe

theorem allow_tranfer_preserves_Inv {cfg : Config} {a : AccountId}
    {st st' : State} {evs : List Event}
    (h : allow_tranfer cfg a st = (st', Except.ok evs))
    (hInv : Inv st) : Inv st' := by
  obtain ⟨u0, hu0, -, -, rfl⟩ := allow_tranfer_ok h
  obtain ⟨⟨hd1, hd2⟩, hk1, hk2⟩ := hInv
  have hAL : mlookup st.accountLookUp u0.phone = some u0 := hd1 a u0 hu0
  have hu0a : u0.owner = a := hk1 a u0 hu0
  refine ⟨⟨?_, ?_⟩, ?_, ?_⟩
  · intro k e hke
    rw [mlookup_minsert] at hke
    by_cases hak : a = k
    · rw [if_pos hak] at hke
      obtain rfl := Option.some.inj hke
      simp [mlookup_minsert]
    · rw [if_neg hak] at hke
      have he := hd1 k e hke
      rw [mlookup_minsert]
      by_cases hpe : u0.phone = e.phone
      · rw [← hpe, hAL] at he
        obtain rfl := Option.some.inj he
        exact absurd (hu0a.symm.trans (hk1 k u0 hke)) hak
      · rw [if_neg hpe]
        exact he
  · intro q e hqe
    rw [mlookup_minsert] at hqe
    by_cases hpq : u0.phone = q
    · rw [if_pos hpq] at hqe
      obtain rfl := Option.some.inj hqe
      simp [mlookup_minsert, hu0a]
    · rw [if_neg hpq] at hqe
      have he := hd2 q e hqe
      rw [mlookup_minsert]
      by_cases hae : a = e.owner
      · rw [← hae, hu0] at he
        obtain rfl := Option.some.inj he
        exact absurd (hk2 q u0 hqe) hpq
      · rw [if_neg hae]
        exact he
  · intro k e hke
    rw [mlookup_minsert] at hke
    by_cases hak : a = k
    · rw [if_pos hak] at hke
      obtain rfl := Option.some.inj hke
      show u0.owner = k
      exact hu0a.trans hak
    · rw [if_neg hak] at hke
      exact hk1 k e hke
  · intro q e hqe
    rw [mlookup_minsert] at hqe
    by_cases hpq : u0.phone = q
    · rw [if_pos hpq] at hqe
      obtain rfl := Option.some.inj hqe
      show u0.phone = q
      exact hpq
    · rw [if_neg hpq] at hqe
      exact hk2 q e hqe

theorem clear_data_preserves_Inv {cfg : Config} {a : AccountId}
    {st st' : State} {evs : List Event}
    (h : clear_data cfg a st = (st', Except.ok evs))
    (hInv : Inv st) : Inv st' := by
  obtain ⟨u, hu, -, -, rfl⟩ := clear_data_ok h
  obtain ⟨⟨hd1, hd2⟩, hk1, hk2⟩ := hInv
  have hAL : mlookup st.accountLookUp u.phone = some u := hd1 a u hu
  have hua : u.owner = a := hk1 a u hu
  refine ⟨⟨?_, ?_⟩, ?_, ?_⟩
  · intro k e hke
    rw [mlookup_mremove] at hke
    by_cases hak : a = k
    · rw [if_pos hak] at hke
      cases hke
    · rw [if_neg hak] at hke
      have he := hd1 k e hke
      rw [mlookup_mremove]
      by_cases hpe : u.phone = e.phone
      · rw [← hpe, hAL] at he
        obtain rfl := Option.some.inj he
        exact absurd (hua.symm.trans (hk1 k u hke)) hak
      · rw [if_neg hpe]
        exact he
  · intro q e hqe
    rw [mlookup_mremove] at hqe
    by_cases hpq : u.phone = q
    · rw [if_pos hpq] at hqe
      cases hqe
    · rw [if_neg hpq] at hqe
      have he := hd2 q e hqe
      rw [mlookup_mremove]
      by_cases hae : a = e.owner
      · rw [← hae, hu] at he
        obtain rfl := Option.some.inj he
        exact absurd (hk2 q u hqe) hpq
      · rw [if_neg hae]
        exact he
  · intro k e hke
    rw [mlookup_mremove] at hke
    by_cases hak : a = k
    · rw [if_pos hak] at hke
      cases hke
    · rw [if_neg hak] at hke
      exact hk1 k e hke
  · intro q e hqe
    rw [mlookup_mremove] at hqe
    by_cases hpq : u.phone = q
    · rw [if_pos hpq] at hqe
      cases hqe
    · rw [if_neg hpq] at hqe
      exact hk2 q e hqe

theorem applyOp_preserves_Inv {cfg : Config} {op : Op} {st st' : State}
    {evs : List Event}
    (h : applyOp cfg op st = (st', Except.ok evs))
    (hsafe : registerSafe op st) (hInv : Inv st) : Inv st' := by
  cases op <;> simp only [applyOp] at h
  case register a p pub nw =>
    exact register_preserves_Inv h hsafe hInv
  case look_up a p =>
    obtain ⟨u, -, -, rfl, -⟩ := look_up_ok h
    exact hInv
  case reverse_look_up a c =>
    obtain ⟨u, -, -, rfl, -⟩ := reverse_look_up_ok h
    exact hInv
  case account_data a =>
    obtain ⟨u, -, rfl, -⟩ := account_data_ok h
    exact hInv
  case allow_tranfer a =>
    exact allow_tranfer_preserves_Inv h hInv
  case tranfer a t =>
    have : st = st' := congrArg Prod.fst h
    exact this ▸ hInv
  case clear_data a =>
    exact clear_data_preserves_Inv h hInv

theorem ReachableSafe_Inv {cfg : Config} {st : State}
    (h : ReachableSafe cfg st) : Inv st := by
  induction h with
  | init => exact Inv_empty
  | step hr hsafe happ ih => exact applyOp_preserves_Inv happ hsafe ih

/-! ### Unfolding helpers for `register` -/

theorem register_eq_of_le {cfg : Config} {a : AccountId} {p : Phone}
    {pub nw : Bool} {st : State} (hle : p.length ≤ u32MAX) :
    register cfg a p pub nw st =
      (if ¬ p.length ≥ cfg.NumberMinLength then
        (st, Except.error Error.NumberTooShort)
      else if ¬ p.length ≤ cfg.NumberMaxLength then
        (st, Except.error Error.NumberTooLong)
      else if nw && mcontains st.phoneLookUp a then
        (st, Except.error Error.NumberAlreadyExists)
      else if nw && mcontains st.accountLookUp p then
        (st, Except.error Error.NumberAlreadyExists)
      else if !nw && !mcontains st.phoneLookUp a then
        (st, Except.error Error.NumberDoesNotExist)
      else if !nw && !mcontains st.accountLookUp p then
        (st, Except.error Error.NumberDoesNotExist)
      else
        ({ phoneLookUp := minsert st.phoneLookUp a ⟨a, pub, false, p⟩,
           accountLookUp := minsert st.accountLookUp p ⟨a, pub, false, p⟩ },
         Except.ok [Event.SuccessfullRegsitration])) := by
  unfold register
  have hov : get_usize_safe p.length = some p.length := by
    unfold get_usize_safe
    rw [if_neg (by omega)]
  rw [hov]

theorem register_eq_overflow {cfg : Config} {a : AccountId} {p : Phone}
    {pub nw : Bool} {st : State} (hgt : u32MAX < p.length) :
    register cfg a p pub nw st = (st, Except.error Error.NumberOverflow) := by
  unfold register
  have hov : get_usize_safe p.length = none := by
    unfold get_usize_safe
    rw [if_pos (by omega)]
  rw [hov]

/-! ### Claims -/

/-- C2: Atomicity on failure — for every operation (register, look_up,
reverse_look_up, account_data, allow_tranfer, tranfer, clear_data), every
caller, every argument tuple, and every store state, if the operation returns
an error then the pair of maps (PhoneLookUp, AccountLookUp) after the call is
identical to the pair before the call. -/
theorem C2_atomicity (cfg : Config) (op : Op) (st st' : State) (e : Error)
    (h : applyOp cfg op st = (st', Except.error e)) : st' = st :=
  applyOp_error h

/-- Witness for C2: `look_up` on the empty store fails and leaves the store
unchanged. -/
theorem C2_atomicity_witness :
    (applyOp ⟨true, 15, 7⟩ (Op.look_up 0 [1, 2, 3]) emptyState).1 =
      emptyState :=
  C2_atomicity ⟨true, 15, 7⟩ (Op.look_up 0 [1, 2, 3]) emptyState
    (applyOp ⟨true, 15, 7⟩ (Op.look_up 0 [1, 2, 3]) emptyState).1
    Error.LookupFailure rfl

/-- C4: TransferAlias stub behaviour — for every caller, every recipient
account, and every store state, the tranfer operation returns success and
leaves both maps unchanged, without consulting any record (in particular no
transferable flag is checked). -/
theorem C4_tranfer_stub (cfg : Config) (a t : AccountId) (st : State) :
    tranfer cfg a t st = (st, Except.ok []) := rfl

/-- C5 counterexample: with the configured Transfer flag false, `tranfer`
still succeeds (and `allow_tranfer` succeeds on a registered account), while
the claim says both must return an error. -/
theorem C5_counterexample :
    (tranfer ⟨false, 15, 7⟩ 0 1 emptyState).2 = Except.ok [] ∧
    (allow_tranfer ⟨false, 15, 7⟩ 0
        ⟨[(0, ⟨0, true, false, [1, 2, 3]⟩)],
         [([1, 2, 3], ⟨0, true, false, [1, 2, 3]⟩)]⟩).2 =
      Except.ok [Event.TransferableSet] := by
  constructor
  · rfl
  · rfl

/-- C5 (amended): the configured Transfer flag is declared but never
consulted — every operation behaves identically whether the flag is false or
true, so the flag gates nothing. -/
theorem C5_transfer_flag_unused (cfg : Config) (b1 b2 : Bool) (op : Op)
    (st : State) :
    applyOp { cfg with Transfer := b1 } op st =
      applyOp { cfg with Transfer := b2 } op st := by
  cases op <;> rfl

/-- C1 counterexample: the duality invariant is NOT preserved by every
sequence of successful operations.  From the empty store, account 0 registers
"5551234567", account 1 registers "6661234567", and then account 0
successfully re-registers "6661234567" with `new_account = false` (the code
only checks that both keys exist, not that they belong to the same record).
Afterwards PhoneLookUp still maps account 1 to a record with phone
"6661234567", but AccountLookUp now maps that phone to account 0's record, so
the duality invariant is violated. -/
theorem C1_counterexample :
    okRun ⟨true, 15, 7⟩
      [Op.register 0 [53, 53, 53, 49, 50, 51, 52, 53, 54, 55] true true,
       Op.register 1 [54, 54, 54, 49, 50, 51, 52, 53, 54, 55] true true,
       Op.register 0 [54, 54, 54, 49, 50, 51, 52, 53, 54, 55] true false]
      emptyState = true ∧
    ¬ dualityInv (runOps ⟨true, 15, 7⟩
      [Op.register 0 [53, 53, 53, 49, 50, 51, 52, 53, 54, 55] true true,
       Op.register 1 [54, 54, 54, 49, 50, 51, 52, 53, 54, 55] true true,
       Op.register 0 [54, 54, 54, 49, 50, 51, 52, 53, 54, 55] true false]
      emptyState) := by
  constructor
  · decide
  · intro hdual
    have h := hdual.1 1
      ⟨1, true, false, [54, 54, 54, 49, 50, 51, 52, 53, 54, 55]⟩ (by decide)
    exact absurd h (by decide)

/-- C1 (amended): the duality invariant holds for every store state reachable
from the empty store by successful operations, provided every successful
`register` call with `new_account = false` re-registers the phone already
recorded for the caller (`registerSafe`).  An unrestricted re-register can
break the invariant, as `C1_counterexample` shows. -/
theorem C1_duality (cfg : Config) (st : State) (h : ReachableSafe cfg st) :
    dualityInv st :=
  (ReachableSafe_Inv h).1

/-- Witness for C1: the state after one successful registration is reachable
and satisfies the duality invariant. -/
theorem C1_duality_witness :
    dualityInv (register ⟨true, 15, 7⟩ 0
      [53, 53, 53, 49, 50, 51, 52, 53, 54, 55] true true emptyState).1 :=
  C1_duality ⟨true, 15, 7⟩ _
    (@ReachableSafe.step ⟨true, 15, 7⟩ emptyState
      (register ⟨true, 15, 7⟩ 0 [53, 53, 53, 49, 50, 51, 52, 53, 54, 55]
        true true emptyState).1
      (Op.register 0 [53, 53, 53, 49, 50, 51, 52, 53, 54, 55] true true)
      [Event.SuccessfullRegsitration]
      ReachableSafe.init (by intro hfalse; cases hfalse) rfl)

/-- C3 counterexample: `clear_data` succeeds on a store in which the caller's
PhoneLookUp record and the AccountLookUp entry under that record's phone are
different logical records, while the claim says it succeeds only when they
are the same.  The code checks only existence of the two keys. -/
theorem C3_counterexample :
    (clear_data ⟨true, 15, 7⟩ 0
      ⟨[(0, ⟨0, true, false, [1, 1, 1]⟩)],
       [([1, 1, 1], ⟨5, true, false, [1, 1, 1]⟩)]⟩).2 =
      Except.ok [Event.NumberRemoved] ∧
    mlookup (State.mk [(0, ⟨0, true, false, [1, 1, 1]⟩)]
        [([1, 1, 1], ⟨5, true, false, [1, 1, 1]⟩)]).phoneLookUp 0 ≠
      mlookup (State.mk [(0, ⟨0, true, false, [1, 1, 1]⟩)]
        [([1, 1, 1], ⟨5, true, false, [1, 1, 1]⟩)]).accountLookUp [1, 1, 1] := by
  constructor
  · rfl
  · decide

/-- C3 (amended): clear_data succeeds if and only if a PhoneLookUp entry for
the caller exists and an AccountLookUp entry under that record's phone exists
(no identity check between the two records); on success it removes exactly
those two keys, and otherwise it fails with IncorrectInformation leaving the
store unchanged. -/
theorem C3_clear_data (cfg : Config) (a : AccountId) (st : State) :
    (∀ u, mlookup st.phoneLookUp a = some u →
      (∃ w, mlookup st.accountLookUp u.phone = some w) →
      clear_data cfg a st =
        ({ phoneLookUp := mremove st.phoneLookUp a,
           accountLookUp := mremove st.accountLookUp u.phone },
         Except.ok [Event.NumberRemoved])) ∧
    (mlookup st.phoneLookUp a = none →
      clear_data cfg a st = (st, Except.error Error.IncorrectInformation)) ∧
    (∀ u, mlookup st.phoneLookUp a = some u →
      mlookup st.accountLookUp u.phone = none →
      clear_data cfg a st = (st, Except.error Error.IncorrectInformation)) := by
  refine ⟨?_, ?_, ?_⟩
  · intro u hu hw
    obtain ⟨w, hw⟩ := hw
    have h1 : mcontains st.phoneLookUp a = true :=
      (mcontains_iff _ _).mpr ⟨u, hu⟩
    have h2 : mcontains st.accountLookUp u.phone = true :=
      (mcontains_iff _ _).mpr ⟨w, hw⟩
    simp [clear_data, h1, h2, hu]
  · intro h0
    have h1 : mcontains st.phoneLookUp a = false :=
      (mcontains_false _ _).mpr h0
    simp [clear_data, h1]
  · intro u hu h0
    have h1 : mcontains st.phoneLookUp a = true :=
      (mcontains_iff _ _).mpr ⟨u, hu⟩
    have h2 : mcontains st.accountLookUp u.phone = false :=
      (mcontains_false _ _).mpr h0
    simp [clear_data, h1, h2, hu]

/-- Witness for C3: on a store holding one matching record for account 0,
clear_data removes exactly the two entries. -/
theorem C3_clear_data_witness :
    clear_data ⟨true, 15, 7⟩ 0
      ⟨[(0, ⟨0, true, false, [1, 2, 3]⟩)],
       [([1, 2, 3], ⟨0, true, false, [1, 2, 3]⟩)]⟩ =
      ({ phoneLookUp := mremove [(0, ⟨0, true, false, [1, 2, 3]⟩)] 0,
         accountLookUp :=
           mremove [([1, 2, 3], (⟨0, true, false, [1, 2, 3]⟩ : UserInfo))]
             [1, 2, 3] },
       Except.ok [Event.NumberRemoved]) :=
  (C3_clear_data ⟨true, 15, 7⟩ 0
      ⟨[(0, ⟨0, true, false, [1, 2, 3]⟩)],
       [([1, 2, 3], ⟨0, true, false, [1, 2, 3]⟩)]⟩).1
    ⟨0, true, false, [1, 2, 3]⟩ rfl ⟨⟨0, true, false, [1, 2, 3]⟩, rfl⟩

/-- C6 counterexample: an alias longer than `u32::MAX` bytes is strictly
above the configured maximum (15) yet register fails with NumberOverflow,
not NumberTooLong, refuting the claim that lengths strictly above the
maximum always fail with NumberTooLong. -/
theorem C6_counterexample :
    (register ⟨true, 15, 7⟩ 0 (List.replicate 4294967296 0) true true
        emptyState).2 = Except.error Error.NumberOverflow ∧
    15 < (List.replicate 4294967296 (0 : Nat)).length ∧
    Error.NumberOverflow ≠ Error.NumberTooLong := by
  refine ⟨?_, by rw [List.length_replicate]; decide, by decide⟩
  rw [register_eq_overflow (by rw [List.length_replicate]; decide)]

/-- C6 (amended): with the two bounds being representable `u32` values and
min ≤ max, register fails with NumberTooShort for lengths strictly below the
minimum; for lengths strictly above the maximum it fails with NumberTooLong
when the length is representable as `u32` and with NumberOverflow otherwise;
both bounds are inclusive: lengths between min and max pass the length check
and, with otherwise-valid arguments, register succeeds. -/
theorem C6_length_bounds (cfg : Config) (a : AccountId) (p : Phone)
    (pub nw : Bool) (st : State)
    (_hmin : cfg.NumberMinLength ≤ u32MAX)
    (hmax : cfg.NumberMaxLength ≤ u32MAX)
    (hmm : cfg.NumberMinLength ≤ cfg.NumberMaxLength) :
    (p.length < cfg.NumberMinLength →
      register cfg a p pub nw st = (st, Except.error Error.NumberTooShort)) ∧
    (cfg.NumberMaxLength < p.length → p.length ≤ u32MAX →
      register cfg a p pub nw st = (st, Except.error Error.NumberTooLong)) ∧
    (u32MAX < p.length →
      register cfg a p pub nw st = (st, Except.error Error.NumberOverflow)) ∧
    (cfg.NumberMinLength ≤ p.length → p.length ≤ cfg.NumberMaxLength →
      nw = true → mlookup st.phoneLookUp a = none →
      mlookup st.accountLookUp p = none →
      register cfg a p pub nw st =
        ({ phoneLookUp := minsert st.phoneLookUp a ⟨a, pub, false, p⟩,
           accountLookUp := minsert st.accountLookUp p ⟨a, pub, false, p⟩ },
         Except.ok [Event.SuccessfullRegsitration])) := by
  refine ⟨?_, ?_, ?_, ?_⟩
  · intro hshort
    rw [register_eq_of_le (by omega), if_pos (by omega)]
  · intro hlong hle
    rw [register_eq_of_le hle, if_neg (by omega), if_pos (by omega)]
  · intro hover
    exact register_eq_overflow hover
  · intro h1 h2 h3 h4 h5
    subst h3
    have hc1 : mcontains st.phoneLookUp a = false := (mcontains_false _ _).mpr h4
    have hc2 : mcontains st.accountLookUp p = false := (mcontains_false _ _).mpr h5
    rw [register_eq_of_le (by omega), if_neg (by omega), if_neg (by omega)]
    simp [hc1, hc2]

/-- Witness for C6: with min=7, max=15, an alias of length 6 fails with
NumberTooShort on the empty store. -/
theorem C6_length_bounds_witness :
    register ⟨true, 15, 7⟩ 0 [1, 2, 3, 4, 5, 6] true true emptyState =
      (emptyState, Except.error Error.NumberTooShort) :=
  (C6_length_bounds ⟨true, 15, 7⟩ 0 [1, 2, 3, 4, 5, 6] true true emptyState
      (by decide) (by decide) (by decide)).1 (by decide)

/-- C7: Round-trip — a successful register by A of alias "5551234567" with
public=true and new_account=true is followed by look_up of that alias
succeeding with AccountFound(A) for any signed caller, and by
reverse_look_up of A succeeding with LookUpSuccess("5551234567"). -/
theorem C7_round_trip (cfg : Config) (A : AccountId) (st st' : State)
    (evs : List Event) (caller1 caller2 : AccountId)
    (h : register cfg A [53, 53, 53, 49, 50, 51, 52, 53, 54, 55] true true st =
      (st', Except.ok evs)) :
    look_up cfg caller1 [53, 53, 53, 49, 50, 51, 52, 53, 54, 55] st' =
      (st', Except.ok [Event.AccountFound A]) ∧
    reverse_look_up cfg caller2 A st' =
      (st', Except.ok
        [Event.LookUpSuccess [53, 53, 53, 49, 50, 51, 52, 53, 54, 55]]) := by
  obtain ⟨-, rfl, -⟩ := register_ok h
  constructor
  · simp [look_up, mlookup_minsert]
  · simp [reverse_look_up, mlookup_minsert]

/-- Witness for C7: the round trip on the empty store with A = 0. -/
theorem C7_round_trip_witness :
    look_up ⟨true, 15, 7⟩ 9 [53, 53, 53, 49, 50, 51, 52, 53, 54, 55]
        (register ⟨true, 15, 7⟩ 0 [53, 53, 53, 49, 50, 51, 52, 53, 54, 55]
          true true emptyState).1 =
      ((register ⟨true, 15, 7⟩ 0 [53, 53, 53, 49, 50, 51, 52, 53, 54, 55]
          true true emptyState).1,
       Except.ok [Event.AccountFound 0]) ∧
    reverse_look_up ⟨true, 15, 7⟩ 8 0
        (register ⟨true, 15, 7⟩ 0 [53, 53, 53, 49, 50, 51, 52, 53, 54, 55]
          true true emptyState).1 =
      ((register ⟨true, 15, 7⟩ 0 [53, 53, 53, 49, 50, 51, 52, 53, 54, 55]
          true true emptyState).1,
       Except.ok
         [Event.LookUpSuccess [53, 53, 53, 49, 50, 51, 52, 53, 54, 55]]) :=
  C7_round_trip ⟨true, 15, 7⟩ 0 emptyState
    (register ⟨true, 15, 7⟩ 0 [53, 53, 53, 49, 50, 51, 52, 53, 54, 55]
      true true emptyState).1
    [Event.SuccessfullRegsitration] 9 8 rfl

/-- C8: the public-visibility gate applies even to the record's own owner —
look_up of a non-public record's alias and reverse_look_up of its owner fail
with NumberNotPublic for every caller (the caller, owner included, is never
compared), while account_data returns the record's data to its owner
regardless of the public flag. -/
theorem C8_privacy_gate (cfg : Config) (st : State) :
    (∀ (caller : AccountId) (p : Phone) (u : UserInfo),
      mlookup st.accountLookUp p = some u → u.public = false →
      look_up cfg caller p st = (st, Except.error Error.NumberNotPublic)) ∧
    (∀ (caller a : AccountId) (u : UserInfo),
      mlookup st.phoneLookUp a = some u → u.public = false →
      reverse_look_up cfg caller a st =
        (st, Except.error Error.NumberNotPublic)) ∧
    (∀ (a : AccountId) (u : UserInfo),
      mlookup st.phoneLookUp a = some u →
      account_data cfg a st =
        (st, Except.ok [Event.AccountData a u.public u.transferable u.phone])) := by
  refine ⟨?_, ?_, ?_⟩
  · intro caller p u hu hpub
    simp [look_up, hu, hpub]
  · intro caller a u hu hpub
    simp [reverse_look_up, hu, hpub]
  · intro a u hu
    simp [account_data, hu]

/-- Witness for C8: the owner (account 0) of a non-public record cannot look
up its own alias. -/
theorem C8_privacy_gate_witness :
    look_up ⟨true, 15, 7⟩ 0 [1, 2, 3]
        ⟨[(0, ⟨0, false, false, [1, 2, 3]⟩)],
         [([1, 2, 3], ⟨0, false, false, [1, 2, 3]⟩)]⟩ =
      (⟨[(0, ⟨0, false, false, [1, 2, 3]⟩)],
         [([1, 2, 3], ⟨0, false, false, [1, 2, 3]⟩)]⟩,
       Except.error Error.NumberNotPublic) :=
  (C8_privacy_gate ⟨true, 15, 7⟩
      ⟨[(0, ⟨0, false, false, [1, 2, 3]⟩)],
       [([1, 2, 3], ⟨0, false, false, [1, 2, 3]⟩)]⟩).1
    0 [1, 2, 3] ⟨0, false, false, [1, 2, 3]⟩ rfl rfl

/-- C9 counterexample: with an entry already present for the caller, an alias
longer than `u32::MAX` bytes is strictly over-long yet register fails with
NumberOverflow, not NumberTooLong, refuting "an over-long alias always fails
with NumberTooLong". -/
theorem C9_counterexample :
    (register ⟨true, 15, 7⟩ 5 (List.replicate 4294967296 1) true false
        ⟨[(5, ⟨5, true, false, [9, 9, 9, 9, 9, 9, 9]⟩)],
         [([9, 9, 9, 9, 9, 9, 9], ⟨5, true, false, [9, 9, 9, 9, 9, 9, 9]⟩)]⟩).2 =
      Except.error Error.NumberOverflow ∧
    15 < (List.replicate 4294967296 (1 : Nat)).length ∧
    Error.NumberOverflow ≠ Error.NumberTooLong := by
  refine ⟨?_, by rw [List.length_replicate]; decide, by decide⟩
  rw [register_eq_overflow (by rw [List.length_replicate]; decide)]

/-- C9 (amended): the length validation precedes every existence check — for
any store (entries for the caller or the alias present or not) and any
new_account flag, an alias strictly below the minimum always fails with
NumberTooShort, and an over-long alias fails with NumberTooLong when its
length is representable as `u32` and with NumberOverflow otherwise; in no
case does an out-of-bounds length produce NumberAlreadyExists or
NumberDoesNotExist. -/
theorem C9_validation_precedence (cfg : Config) (a : AccountId) (p : Phone)
    (pub nw : Bool) (st : State)
    (hminle : cfg.NumberMinLength ≤ u32MAX)
    (hminmax : cfg.NumberMinLength ≤ cfg.NumberMaxLength) :
    (p.length < cfg.NumberMinLength →
      register cfg a p pub nw st = (st, Except.error Error.NumberTooShort)) ∧
    (cfg.NumberMaxLength < p.length → p.length ≤ u32MAX →
      register cfg a p pub nw st = (st, Except.error Error.NumberTooLong)) ∧
    (cfg.NumberMaxLength < p.length → u32MAX < p.length →
      register cfg a p pub nw st = (st, Except.error Error.NumberOverflow)) := by
  refine ⟨?_, ?_, ?_⟩
  · intro hshort
    rw [register_eq_of_le (by omega), if_pos (by omega)]
  · intro hlong hle
    rw [register_eq_of_le hle, if_neg (by omega), if_pos (by omega)]
  · intro hlong hover
    exact register_eq_overflow hover

/-- Witness for C9: a too-short alias fails with NumberTooShort even though
the caller and the alias both already have entries and new_account is true
(so the existence checks would have produced NumberAlreadyExists). -/
theorem C9_validation_precedence_witness :
    register ⟨true, 15, 7⟩ 0 [1, 2] true true
        ⟨[(0, ⟨0, true, false, [1, 2]⟩)],
         [([1, 2], ⟨0, true, false, [1, 2]⟩)]⟩ =
      (⟨[(0, ⟨0, true, false, [1, 2]⟩)],
         [([1, 2], ⟨0, true, false, [1, 2]⟩)]⟩,
       Except.error Error.NumberTooShort) :=
  (C9_validation_precedence ⟨true, 15, 7⟩ 0 [1, 2] true true
      ⟨[(0, ⟨0, true, false, [1, 2]⟩)],
       [([1, 2], ⟨0, true, false, [1, 2]⟩)]⟩
      (by decide) (by decide)).1 (by decide)

/-- C10: Idempotence of GrantTransferPermission — if allow_tranfer succeeds
for a caller, running it again immediately succeeds with the same events and
leaves the store exactly as after the first call. -/
theorem C10_allow_tranfer_idem (cfg : Config) (a : AccountId)
    (st st' : State) (evs : List Event)
    (h : allow_tranfer cfg a st = (st', Except.ok evs)) :
    allow_tranfer cfg a st' = (st', Except.ok evs) := by
  obtain ⟨u0, hu0, ⟨w, hw⟩, rfl, rfl⟩ := allow_tranfer_ok h
  have hPL : mlookup
      (minsert st.phoneLookUp a { u0 with transferable := true }) a =
      some { u0 with transferable := true } := by
    rw [mlookup_minsert, if_pos rfl]
  have hAL : mlookup
      (minsert st.accountLookUp u0.phone { u0 with transferable := true })
      u0.phone = some { u0 with transferable := true } := by
    rw [mlookup_minsert, if_pos rfl]
  simp [allow_tranfer, mcontains, hPL, hAL, minsert_idem]

/-- Witness for C10: running allow_tranfer twice from a one-record store. -/
theorem C10_allow_tranfer_idem_witness :
    allow_tranfer ⟨true, 15, 7⟩ 0
        (allow_tranfer ⟨true, 15, 7⟩ 0
          ⟨[(0, ⟨0, true, false, [1, 2, 3]⟩)],
           [([1, 2, 3], ⟨0, true, false, [1, 2, 3]⟩)]⟩).1 =
      ((allow_tranfer ⟨true, 15, 7⟩ 0
          ⟨[(0, ⟨0, true, false, [1, 2, 3]⟩)],
           [([1, 2, 3], ⟨0, true, false, [1, 2, 3]⟩)]⟩).1,
       Except.ok [Event.TransferableSet]) :=
  C10_allow_tranfer_idem ⟨true, 15, 7⟩ 0
    ⟨[(0, ⟨0, true, false, [1, 2, 3]⟩)],
     [([1, 2, 3], ⟨0, true, false, [1, 2, 3]⟩)]⟩
    (allow_tranfer ⟨true, 15, 7⟩ 0
      ⟨[(0, ⟨0, true, false, [1, 2, 3]⟩)],
       [([1, 2, 3], ⟨0, true, false, [1, 2, 3]⟩)]⟩).1
    [Event.TransferableSet] rfl

end Pesa
